import Mathlib

/-!
Verification of the rewrite-impl generator in
`src/c2rust-refactor/gen/rewrite.py`.

The Python module is a code generator: for each AST node-type declaration it
emits Rust `Rewrite`, `Recursive`, `RecoverChildren`, ... impls.  We embed:

* the declaration/attribute data model the generator consumes (classes
  `Struct`, `Enum`, `Flag` and the `attrs` dict, from the repository's `ast`
  module, reconstructed from their use in `rewrite.py`);
* the pure configuration functions (`type_has_impl`,
  `type_needs_generated_impl`, `get_rewrite_strategies`,
  `prec_name_to_expr`, `field_prec_expr`, `rewrite_field_expr`) as Lean
  functions over that model;
* the line output of `do_rewrite_impl` as a `List String`;
* the run-time behaviour of the emitted Rust code (the strategy-dispatch
  loop, the per-field blocks of `do_recursive_body`, and the
  `RecoverChildren` bodies) as explicit state-passing functions over a
  `RewriteCtxt` model.
-/

/-- Attribute lookup on a declaration's or field's attribute map.  Python
declarations carry `attrs`, a dict from attribute name to string value;
`attrs.get(k)` returns the value or `None`. -/
def attrsGet (attrs : List (String × String)) (k : String) : Option String :=
  (attrs.find? (fun p => p.1 == k)).map (fun p => p.2)

/-- Python `k in attrs` membership test on the attribute map. -/
def attrsContains (attrs : List (String × String)) (k : String) : Bool :=
  (attrsGet attrs k).isSome

/-- Character-level worker for `splitComma`; `acc` holds the current piece in
reverse order. -/
def splitCommaAux : List Char → List Char → List String
  | [], acc => [String.mk acc.reverse]
  | c :: rest, acc =>
    if c = ',' then String.mk acc.reverse :: splitCommaAux rest []
    else splitCommaAux rest (c :: acc)

/-- Python `s.split(',')` (note: the split of `""` is `[""]`). -/
def splitComma (s : String) : List String :=
  splitCommaAux s.data []

/-- Python string truthiness applied to an attribute lookup: an attribute that
is present with an empty value behaves like an absent one under `if attr:`. -/
def truthyGet (attrs : List (String × String)) (k : String) : Option String :=
  match attrsGet attrs k with
  | some s => if s = "" then none else some s
  | none => none

/-- Python `str.isupper()`: at least one cased character and no lowercase
cased character (ASCII: cased characters are the letters). -/
def pyIsUpper (s : String) : Bool :=
  s.data.any (fun c => c.isAlpha) && s.data.all (fun c => !c.isLower)

/-- Kind of a node-type declaration: the generator distinguishes `Struct`,
`Enum` and `Flag` declarations (classes of the repository's `ast` module)
via `isinstance` checks. -/
inductive DeclKind where
  | struct
  | enum
  | flag
  | other
deriving DecidableEq, Repr

/-- A field of a variant, with its name and its attribute map. -/
structure NodeField where
  name : String
  attrs : List (String × String)
deriving DecidableEq, Repr

/-- A variant of a declaration (a struct has a single variant). -/
structure Variant where
  name : String
  fields : List NodeField
deriving DecidableEq, Repr

/-- A node-type declaration as consumed by the generator. -/
structure Decl where
  kind : DeclKind
  name : String
  attrs : List (String × String)
  variants : List Variant
deriving DecidableEq, Repr

/-- `DEFAULT_GEN_TRAITS` from rewrite.py (membership is all that is used). -/
def DEFAULT_GEN_TRAITS : List String :=
  ["Rewrite", "MaybeRewriteSeq", "RecoverChildren"]

/-- `DEFAULT_STRUCT_ENUM_GEN_TRAITS` from rewrite.py. -/
def DEFAULT_STRUCT_ENUM_GEN_TRAITS : List String :=
  ["Recursive"]

/-- Helper: does a comma-separated attribute value (when present) name the
trait?  Mirrors `x is not None and trait in x.split(',')`. -/
def attrNamesTrait (o : Option String) (trait : String) : Bool :=
  match o with
  | some s => (splitComma s).contains trait
  | none => false

/-- `type_has_impl(d, trait)` from rewrite.py (lines 206-234): whether an impl
of `trait` can be assumed to exist for declaration `d`. -/
def type_has_impl (d : Decl) (trait : String) : Bool :=
  if attrNamesTrait (attrsGet d.attrs "rewrite_skip") trait then false
  else if attrNamesTrait (attrsGet d.attrs "rewrite_gen") trait then true
  else if attrNamesTrait (attrsGet d.attrs "rewrite_custom") trait then true
  else if attrsContains d.attrs "rewrite_print" &&
      (trait == "PrintParse" || trait == "Splice") then true
  else if attrsContains d.attrs "rewrite_print_recover" &&
      (trait == "PrintParse" || trait == "Splice" || trait == "Recover") then true
  else if attrsContains d.attrs "rewrite_seq_item" && trait == "SeqItem" then true
  else if DEFAULT_GEN_TRAITS.contains trait then true
  else if (d.kind = DeclKind.struct ∨ d.kind = DeclKind.enum) &&
      DEFAULT_STRUCT_ENUM_GEN_TRAITS.contains trait then true
  else false

/-- `type_needs_generated_impl(d, trait)` from rewrite.py (lines 236-254). -/
def type_needs_generated_impl (d : Decl) (trait : String) : Bool :=
  if attrNamesTrait (attrsGet d.attrs "rewrite_skip") trait then false
  else if attrNamesTrait (attrsGet d.attrs "rewrite_gen") trait then true
  else if attrsContains d.attrs "rewrite_seq_item" && trait == "SeqItem" then true
  else if DEFAULT_GEN_TRAITS.contains trait then true
  else if (d.kind = DeclKind.struct ∨ d.kind = DeclKind.enum) &&
      DEFAULT_STRUCT_ENUM_GEN_TRAITS.contains trait then true
  else false

/-- `get_rewrite_strategies(d)` from rewrite.py (lines 256-276): the ordered
strategy list used by the generated `Rewrite` impl. -/
def get_rewrite_strategies (d : Decl) : List String :=
  match attrsGet d.attrs "rewrite_strategies" with
  | some s => splitComma s
  | none =>
    let strats : List String := []
    let strats := if d.kind = DeclKind.flag then strats ++ ["equal"]
      else if type_has_impl d "Recursive" then strats ++ ["recursive"]
      else strats
    let strats := match attrsGet d.attrs "rewrite_extra_strategies" with
      | some es => strats ++ splitComma es
      | none => strats
    if type_has_impl d "PrintParse" &&
        (type_has_impl d "RecoverChildren" && type_has_impl d "Splice") then
      strats ++ ["print"]
    else strats

/-- `prec_name_to_expr(name, inc)` from rewrite.py (lines 154-162): the Rust
expression for a named precedence value. -/
def prec_name_to_expr (name : String) (inc : Bool) : String :=
  let inc_str := if inc then " + 1" else ""
  if pyIsUpper name then
    "parser::PREC_" ++ name ++ inc_str
  else
    "parser::AssocOp::" ++ name ++ ".precedence() as i8" ++ inc_str

/-- `field_prec_expr(f, first, suffix)` from rewrite.py (lines 164-192): the
Rust expression for the precedence to install when entering field `f`
(`first` marks the leading element of a sequence field). -/
def field_prec_expr (f : NodeField) (first : Bool) (suffix : String) : String :=
  let prec_val := "parser::PREC_RESET"
  let prec_val := match truthyGet f.attrs "prec" with
    | some p => prec_name_to_expr p false
    | none => prec_val
  let prec_val := match truthyGet f.attrs "prec_inc" with
    | some p => prec_name_to_expr p true
    | none => prec_val
  match truthyGet f.attrs "prec_left_of_binop" with
  | some op => "binop_left_prec(" ++ op ++ suffix ++ ")"
  | none =>
  match truthyGet f.attrs "prec_right_of_binop" with
  | some op => "binop_right_prec(" ++ op ++ suffix ++ ")"
  | none =>
  let prec_val := match truthyGet f.attrs "prec_first" with
    | some p => if first then prec_name_to_expr p false else prec_val
    | none => prec_val
  let ctor := (attrsGet f.attrs "prec_special").getD "Normal"
  "ExprPrec::" ++ ctor ++ "(" ++ prec_val ++ ")"

/-- A word character in the sense of the regex escape used by
`SELF_FIELD_RE` (the character class of the identifier group and of the
word-boundary assertion). -/
def isWordChar (c : Char) : Bool :=
  c.isAlphanum || c = '_'

/-- Maximal leading run of word characters of a character list, paired with
the remainder (the greedy match of the group in `SELF_FIELD_RE`). -/
def wordRun : List Char → List Char × List Char
  | [] => ([], [])
  | c :: cs =>
    if isWordChar c then
      let (r, rest) := wordRun cs
      (c :: r, rest)
    else ([], c :: cs)

/-- Scanner for the substitution performed by `rewrite_field_expr`
(rewrite.py lines 194-201) with `SELF_FIELD_RE`, the regex with word
boundary, the literal `self`, one arbitrary non-newline character (the
unescaped dot of the pattern) and a nonempty identifier group.  Each match
of the pattern is replaced by the dereferenced suffixed variable, exactly as
the Python substitution callback does; `prevWord` tracks whether the
preceding character is a word character (for the leading word boundary) and
`fuel` bounds the recursion (any value at least the list length is exact). -/
def selfSub (suffix : String) : Nat → Bool → List Char → List Char
  | 0, _, rest => rest
  | _ + 1, _, [] => []
  | fuel + 1, prevWord, 's' :: 'e' :: 'l' :: 'f' :: d :: rest =>
    if prevWord || d = '\n' then
      's' :: selfSub suffix fuel true ('e' :: 'l' :: 'f' :: d :: rest)
    else
      match wordRun rest with
      | ([], _) => 's' :: selfSub suffix fuel true ('e' :: 'l' :: 'f' :: d :: rest)
      | (r0 :: r, rest₂) =>
        ('(' :: '*' :: ((r0 :: r) ++ suffix.data ++ [')'])) ++
          selfSub suffix fuel true rest₂
  | fuel + 1, _, c :: cs => c :: selfSub suffix fuel (isWordChar c) cs

/-- `rewrite_field_expr(expr, fmt)` from rewrite.py (lines 194-201), with the
format string specialised to its only use pattern `'%sN'`: every occurrence
of the `SELF_FIELD_RE` pattern in `expr` has its identifier group `foo`
replaced by `(*foo` ++ `suffix` ++ `)`. -/
def rewrite_field_expr (expr : String) (suffix : String) : String :=
  String.mk (selfSub suffix expr.data.length false expr.data)

/-- The sequence-rewriting mode of a field, from rewrite.py lines 342-344: the
value of `seq_rewrite` when set, otherwise enabled with the default mode when
`seq_rewrite_outer_span` is present, otherwise disabled (`none`). -/
def seqRewriteMode (f : NodeField) : Option String :=
  match attrsGet f.attrs "seq_rewrite" with
  | some m => some m
  | none =>
    if attrsContains f.attrs "seq_rewrite_outer_span" then some "" else none

/-- The outer-span argument passed to `rewrite_seq` for a field, from
rewrite.py lines 351-357: the `seq_rewrite_outer_span` expression with
`self.foo` replaced through `rewrite_field_expr` with format `'%s2'`, or
`DUMMY_SP` when the attribute is absent. -/
def outerSpanArg (f : NodeField) : String :=
  match attrsGet f.attrs "seq_rewrite_outer_span" with
  | some e => rewrite_field_expr e "2"
  | none => "DUMMY_SP"

/-- The Rust call expression `mk_rewrite(old, new)` built for a field in
`do_recursive_body` (rewrite.py lines 346-360): a `Rewrite::rewrite` call
when sequence rewriting is disabled, a `rewrite_seq` call with the
outer-span argument otherwise. -/
def mk_rewrite_str (f : NodeField) (old new : String) : String :=
  match seqRewriteMode f with
  | none => "Rewrite::rewrite(" ++ old ++ ", " ++ new ++ ", rcx.borrow())"
  | some _ =>
    "rewrite_seq(" ++ old ++ ", " ++ new ++ ", " ++ outerSpanArg f ++
      ", rcx.borrow())"

/-- Whether a declaration has a field with the given name.  The helper
`has_field` comes from the repository's `util` module, which is not under
src/; it is reconstructed from its use in rewrite.py, where it only gates
the `trace!` lines on the presence of an `id` field. -/
def has_field (d : Decl) (fname : String) : Bool :=
  d.variants.any (fun v => v.fields.any (fun f => f.name == fname))

/-- The lines emitted by `do_rewrite_impl` for one strategy attempt
(rewrite.py lines 296-310): take a mark, run the strategy, return on
success, rewind on failure. -/
def rewriteStratLines (d : Decl) (strat : String) : List String :=
  ["    let mark = rcx.mark();"] ++
  (if has_field d "id" then
    ["    trace!(\"\x7b:?\x7d: rewrite: try " ++ strat ++ "\", new.id);"]
  else []) ++
  ["    let ok = strategy::" ++ strat ++ "::rewrite(old, new, rcx.borrow());",
   "    if ok \x7b"] ++
  (if has_field d "id" then
    ["      trace!(\"\x7b:?\x7d: rewrite: " ++ strat ++ " succeeded\", new.id);"]
  else []) ++
  ["      return true;",
   "    \x7d else \x7b"] ++
  (if has_field d "id" then
    ["      trace!(\"\x7b:?\x7d: rewrite: " ++ strat ++ " FAILED\", new.id);"]
  else []) ++
  ["      rcx.rewind(mark);",
   "    \x7d",
   ""]

/-- `do_rewrite_impl(d)` from rewrite.py (lines 279-315), as the list of
emitted lines: the trivially-true impl for `rewrite_ignore` types, otherwise
one strategy-attempt block per entry of `get_rewrite_strategies(d)` followed
by a final `false`.  Note that the function is total: it emits an impl for
every declaration and raises no error, even when the strategy list is
empty. -/
def do_rewrite_impl (d : Decl) : List String :=
  if attrsContains d.attrs "rewrite_ignore" then
    ["#[allow(unused)]",
     "impl Rewrite for " ++ d.name ++ " \x7b",
     "  fn rewrite(old: &Self, new: &Self, mut rcx: RewriteCtxtRef) -> bool \x7b",
     "    // Rewrite mode: ignore",
     "    true",
     "  \x7d",
     "\x7d"]
  else
    ["#[allow(unused)]",
     "impl Rewrite for " ++ d.name ++ " \x7b",
     "  fn rewrite(old: &Self, new: &Self, mut rcx: RewriteCtxtRef) -> bool \x7b"] ++
    (if has_field d "id" then
      ["    trace!(\"\x7b:?\x7d: rewrite: begin (" ++ d.name ++ ")\", new.id);"]
    else []) ++
    (get_rewrite_strategies d).flatMap (rewriteStratLines d) ++
    (if has_field d "id" then
      ["    trace!(\"\x7b:?\x7d: rewrite: ran out of strategies!\", new.id);"]
    else []) ++
    ["    false",
     "  \x7d",
     "\x7d"]

/-- Modelled from the spec: `RewriteCtxt` (spec sections 3, 4.7).  The Rust
implementation of the context is not under src/; the spec describes it as an
edit log with `mark`/`rewind` plus the current expression precedence, where
`rewind` truncates both the edit log and the precedence history to the
marked point.  Edits are abstract tokens; precedence values are the symbolic
Rust expressions produced by `field_prec_expr`, recorded in `precs` with the
current value being the most recently recorded one (`precInit` before any
record). -/
structure RewriteCtxt where
  edits : List Nat
  precInit : String
  precs : List String
deriving DecidableEq, Repr

/-- Modelled from the spec: `mark()` (spec section 4.7) captures the current
extent of the edit log and of the precedence history. -/
def RewriteCtxt.mark (c : RewriteCtxt) : Nat × Nat :=
  (c.edits.length, c.precs.length)

/-- Modelled from the spec: `rewind(mark)` (spec section 4.7) truncates the
edit log and the precedence history to the marked point. -/
def RewriteCtxt.rewind (c : RewriteCtxt) (m : Nat × Nat) : RewriteCtxt :=
  { c with edits := c.edits.take m.1, precs := c.precs.take m.2 }

/-- The current expression precedence of a context. -/
def RewriteCtxt.curPrec (c : RewriteCtxt) : String :=
  c.precs.getLastD c.precInit

/-- Modelled from the spec: `replace_expr_prec(v)` (spec section 4.7) sets the
precedence and returns the previous value. -/
def RewriteCtxt.replaceExprPrec (c : RewriteCtxt) (v : String) :
    String × RewriteCtxt :=
  (c.curPrec, { c with precs := c.precs ++ [v] })

/-- A context extends another when it has the same initial precedence and
both logs of the smaller one are unchanged initial segments of its own —
the state relation produced by append-only strategies (spec section 4.7:
edits are append-only except for rewind-truncation). -/
def ctxExtends (c c' : RewriteCtxt) : Prop :=
  c'.precInit = c.precInit ∧
    c'.edits.take c.edits.length = c.edits ∧
    c'.precs.take c.precs.length = c.precs

/-- Run-time behaviour of the strategy-attempt sequence emitted by
`do_rewrite_impl` (rewrite.py lines 296-313, cf. `rewriteStratLines`): for
each strategy in order, take a mark, run the strategy, return `true` on
success, rewind to the mark and continue on failure; `false` after the last
block.  `run` gives the behaviour of `strategy::<s>::rewrite(old, new, _)`
on the context. -/
def genRewriteSem (run : String → RewriteCtxt → Bool × RewriteCtxt) :
    List String → RewriteCtxt → Bool × RewriteCtxt
  | [], rcx => (false, rcx)
  | s :: rest, rcx =>
    let mark := rcx.mark
    let res := run s rcx
    if res.1 then (true, res.2)
    else genRewriteSem run rest (res.2.rewind mark)

/-- The abstract operations the emitted `Recursive` and `RecoverChildren`
bodies invoke on field values (of abstract type `V`): the `Rewrite::rewrite`
dispatcher, `rewrite_seq` (whose third argument is the emitted outer-span
expression), `RecoverChildren::recover_node_and_children`, and the slicing
operations `x[0]` and `x[1..]` used for `prec_first` fields. -/
structure SemOps (V : Type) where
  rw : V → V → RewriteCtxt → Bool × RewriteCtxt
  rwseq : V → V → String → RewriteCtxt → Bool × RewriteCtxt
  recNC : V → V → RewriteCtxt → RewriteCtxt
  elem0 : V → V
  rest1 : V → V

/-- The call the emitted `Recursive` body performs to reconcile a field pair
(rewrite.py lines 346-360): the dispatcher when sequence rewriting is
disabled, otherwise `rewrite_seq` with the field's outer-span argument
(cf. `mk_rewrite_str` for the emitted text). -/
def fieldCall {V : Type} (ops : SemOps V) (f : NodeField) (a b : V)
    (rcx : RewriteCtxt) : Bool × RewriteCtxt :=
  match seqRewriteMode f with
  | none => ops.rw a b rcx
  | some _ => ops.rwseq a b (outerSpanArg f) rcx

/-- Run-time behaviour of the block emitted by `do_recursive_body` for one
non-ignored field (rewrite.py lines 363-387), including the expression
precedence bookkeeping: for a `prec_first` field, install the first-element
precedence, rewrite the leading elements, install the rest precedence,
rewrite the remaining elements (short-circuited on failure), restore the
saved precedence; otherwise, when the declaration is `prec_contains_expr`
(`ce`), install the field precedence around the single call; otherwise just
the call. -/
def fieldBlockSem {V : Type} (ops : SemOps V) (ce : Bool) (f : NodeField)
    (a b : V) (rcx : RewriteCtxt) : Bool × RewriteCtxt :=
  if attrsContains f.attrs "prec_first" then
    let p := rcx.replaceExprPrec (field_prec_expr f true "1")
    let r1 := ops.rw (ops.elem0 a) (ops.elem0 b) p.2
    let p2 := r1.2.replaceExprPrec (field_prec_expr f false "1")
    let r2 := if r1.1 then fieldCall ops f (ops.rest1 a) (ops.rest1 b) p2.2
      else (false, p2.2)
    let p3 := r2.2.replaceExprPrec p.1
    (r2.1, p3.2)
  else if ce then
    let p := rcx.replaceExprPrec (field_prec_expr f false "1")
    let r := fieldCall ops f a b p.2
    let p2 := r.2.replaceExprPrec p.1
    (r.1, p2.2)
  else fieldCall ops f a b rcx

/-- Run-time behaviour of the field chain of one match arm emitted by
`do_recursive_body` (rewrite.py lines 337-389): the per-field blocks chained
with the short-circuiting Rust `&&`, ending in `true`; ignored fields are
skipped.  The field values of the two matched trees are passed positionally
(a shape mismatch, impossible for the emitted pattern match, yields
failure). -/
def fieldsSem {V : Type} (ops : SemOps V) (ce : Bool) :
    List NodeField → List V → List V → RewriteCtxt → Bool × RewriteCtxt
  | f :: fs, a :: xs, b :: ys, rcx =>
    if attrsContains f.attrs "rewrite_ignore" then
      fieldsSem ops ce fs xs ys rcx
    else
      let r := fieldBlockSem ops ce f a b rcx
      if r.1 then fieldsSem ops ce fs xs ys r.2
      else (false, r.2)
  | [], _, _, rcx => (true, rcx)
  | _, _, _, rcx => (false, rcx)

/-- Reference run for `fieldsSem`: reconcile every non-ignored field in
declaration order, threading the context, and collect each field's success
bit regardless of earlier failures.  This is the spec's reading of the
`Recursive` strategy: "for each structural field ... reconcile the field's
old/new sub-pair"; "succeeds iff every field reconciles". -/
def runFieldsAll {V : Type} (ops : SemOps V) (ce : Bool) :
    List NodeField → List V → List V → RewriteCtxt → List Bool × RewriteCtxt
  | f :: fs, a :: xs, b :: ys, rcx =>
    if attrsContains f.attrs "rewrite_ignore" then
      runFieldsAll ops ce fs xs ys rcx
    else
      let r := fieldBlockSem ops ce f a b rcx
      let rest := runFieldsAll ops ce fs xs ys r.2
      (r.1 :: rest.1, rest.2)
  | [], _, _, rcx => ([], rcx)
  | _, _, _, rcx => ([false], rcx)

/-- A runtime value of a generated node type: the index of its variant in the
declaration plus the field values of that variant, in declaration order. -/
def NodeVal (V : Type) : Type :=
  Nat × List V

/-- Run-time behaviour of the `match` emitted by `do_recursive_body`
(rewrite.py lines 329-392) on a value pair: when both values carry the same
variant of the declaration, the corresponding match arm runs the field
chain; any other pair falls to the final arm and returns `false`. -/
def recursiveSem {V : Type} (ops : SemOps V) (d : Decl)
    (oldv newv : NodeVal V) (rcx : RewriteCtxt) : Bool × RewriteCtxt :=
  if h : oldv.1 = newv.1 ∧ oldv.1 < d.variants.length then
    fieldsSem ops (attrsContains d.attrs "prec_contains_expr")
      (d.variants.get ⟨oldv.1, h.2⟩).fields oldv.2 newv.2 rcx
  else (false, rcx)

/-- Run-time behaviour of the statements emitted by
`do_recover_children_match` for one non-ignored field (rewrite.py lines
433-454): the recovery descent with the same precedence bookkeeping as the
`Recursive` blocks, but with no success value and no short-circuiting. -/
def recoverFieldSem {V : Type} (ops : SemOps V) (ce : Bool) (f : NodeField)
    (r n : V) (rcx : RewriteCtxt) : RewriteCtxt :=
  if attrsContains f.attrs "prec_first" then
    let p := rcx.replaceExprPrec (field_prec_expr f true "_n")
    let c1 := ops.recNC (ops.elem0 r) (ops.elem0 n) p.2
    let p2 := c1.replaceExprPrec (field_prec_expr f false "_n")
    let c2 := ops.recNC (ops.rest1 r) (ops.rest1 n) p2.2
    let p3 := c2.replaceExprPrec p.1
    p3.2
  else if ce then
    let p := rcx.replaceExprPrec (field_prec_expr f false "_n")
    let c := ops.recNC r n p.2
    let p2 := c.replaceExprPrec p.1
    p2.2
  else ops.recNC r n rcx

/-- The field chain of one match arm of `do_recover_children_match`,
skipping ignored fields; ragged value lists (impossible for the emitted
pattern match) leave the context unchanged from that point. -/
def recoverFieldsSem {V : Type} (ops : SemOps V) (ce : Bool) :
    List NodeField → List V → List V → RewriteCtxt → RewriteCtxt
  | f :: fs, r :: rs, n :: ns, rcx =>
    if attrsContains f.attrs "rewrite_ignore" then
      recoverFieldsSem ops ce fs rs ns rcx
    else recoverFieldsSem ops ce fs rs ns (recoverFieldSem ops ce f r n rcx)
  | _, _, _, rcx => rcx

/-- Run-time behaviour of the `match (reparsed, new)` emitted by
`do_recover_children_match` (rewrite.py lines 422-458).  The match is
emitted only for non-ignored struct and enum declarations (for the others
the generated `recover_children` body is empty).  When the two values carry
the same variant, the arm walks the fields; any other pair falls to the
final arm, `_ => panic!(...)`, modelled as the exceptional result carrying
the panic message. -/
def recoverChildrenMatchSem {V : Type} (ops : SemOps V) (d : Decl)
    (r n : NodeVal V) (rcx : RewriteCtxt) : Except String RewriteCtxt :=
  if (d.kind = DeclKind.struct ∨ d.kind = DeclKind.enum) &&
      !attrsContains d.attrs "rewrite_ignore" then
    if h : r.1 = n.1 ∧ r.1 < d.variants.length then
      Except.ok (recoverFieldsSem ops
        (attrsContains d.attrs "prec_contains_expr")
        (d.variants.get ⟨r.1, h.2⟩).fields r.2 n.2 rcx)
    else Except.error "new and reparsed ASTs don\x27t match"
  else Except.ok rcx

/-- Run-time behaviour of the `recover_node_and_children` method emitted by
`do_recover_children_impl` (rewrite.py lines 460-475): when the declaration
has a `Recover` impl, first call the recovery hook with no span restriction
and stop if it returns true; otherwise (and when there is no `Recover`
impl) recurse into the children.  `children` is the behaviour of the
generated `recover_children` and `hook` that of the handwritten
`recover`. -/
def recoverNodeAndChildrenSem (d : Decl)
    (hook : Option Nat → RewriteCtxt → Bool × RewriteCtxt)
    (children : RewriteCtxt → RewriteCtxt) (rcx : RewriteCtxt) : RewriteCtxt :=
  if type_has_impl d "Recover" then
    let r := hook none rcx
    if r.1 then r.2 else children r.2
  else children rcx

/-- Run-time behaviour of the `recover_node_restricted` method emitted by
`do_recover_children_impl` (rewrite.py lines 476-482): like
`recover_node_and_children` but the hook receives the old span as its
restriction. -/
def recoverNodeRestrictedSem (d : Decl) (oldSpan : Nat)
    (hook : Option Nat → RewriteCtxt → Bool × RewriteCtxt)
    (children : RewriteCtxt → RewriteCtxt) (rcx : RewriteCtxt) : RewriteCtxt :=
  if type_has_impl d "Recover" then
    let r := hook (some oldSpan) rcx
    if r.1 then r.2 else children r.2
  else children rcx

/-- The automatic base strategies, decomposed as the spec words them: the
kind-determined head of the list (`equal` for `Flag` declarations,
`recursive` for declarations with a `Recursive` impl). -/
def autoBaseStrategies (d : Decl) : List String :=
  if d.kind = DeclKind.flag then ["equal"]
  else if type_has_impl d "Recursive" then ["recursive"]
  else []

/-- The configured extra strategies of a declaration
(`rewrite_extra_strategies`, comma-split). -/
def autoExtraStrategies (d : Decl) : List String :=
  match attrsGet d.attrs "rewrite_extra_strategies" with
  | some es => splitComma es
  | none => []

/-- The trailing `print` strategy, present exactly when the declaration has
`PrintParse`, `RecoverChildren` and `Splice` impls. -/
def autoPrintStrategies (d : Decl) : List String :=
  if type_has_impl d "PrintParse" && (type_has_impl d "RecoverChildren" &&
      type_has_impl d "Splice") then ["print"]
  else []

lemma getLastD_append_one {α : Type} (l : List α) (v d : α) :
    (l ++ [v]).getLastD d = v := by
  induction l generalizing d with
  | nil => rfl
  | cons c cs ih => simp [List.getLastD, ih c]

lemma replaceExprPrec_fst (c : RewriteCtxt) (v : String) :
    (c.replaceExprPrec v).1 = c.curPrec := rfl

lemma replaceExprPrec_curPrec (c : RewriteCtxt) (v : String) :
    ((c.replaceExprPrec v).2).curPrec = v := by
  simp [RewriteCtxt.replaceExprPrec, RewriteCtxt.curPrec, getLastD_append_one]

lemma ctxExtends_rewind {c c' : RewriteCtxt} (h : ctxExtends c c') :
    c'.rewind c.mark = c := by
  obtain ⟨h1, h2, h3⟩ := h
  cases c with
  | mk e p q =>
    cases c' with
    | mk e' p' q' =>
      simp [RewriteCtxt.rewind, RewriteCtxt.mark] at *
      exact ⟨h2, h1, h3⟩

lemma genRewriteSem_allfail (run : String → RewriteCtxt → Bool × RewriteCtxt)
    (l : List String) (rcx : RewriteCtxt)
    (h : ∀ t ∈ l, ∀ c, (run t c).1 = false ∧ ctxExtends c (run t c).2) :
    genRewriteSem run l rcx = (false, rcx) := by
  induction l generalizing rcx with
  | nil => rfl
  | cons s rest ih =>
    have hs := h s (by simp) rcx
    simp [genRewriteSem, hs.1, ctxExtends_rewind hs.2]
    exact ih rcx (fun t ht c => h t (by simp [ht]) c)

lemma genRewriteSem_skip (run : String → RewriteCtxt → Bool × RewriteCtxt)
    (pre rest : List String) (rcx : RewriteCtxt)
    (h : ∀ t ∈ pre, ∀ c, (run t c).1 = false ∧ ctxExtends c (run t c).2) :
    genRewriteSem run (pre ++ rest) rcx = genRewriteSem run rest rcx := by
  induction pre generalizing rcx with
  | nil => rfl
  | cons s pre' ih =>
    have hs := h s (by simp) rcx
    simp [genRewriteSem, hs.1, ctxExtends_rewind hs.2]
    exact ih rcx (fun t ht c => h t (by simp [ht]) c)

/-- C1: counterexample.  A plain struct declaration with no attributes gets
the strategy list `[recursive]`: `equal` is not present at all, let alone
first, refuting "`equal` is always present and always tried first". -/
theorem c1_counterexample :
    get_rewrite_strategies ⟨DeclKind.struct, "Expr", [], [⟨"Expr", []⟩]⟩ =
      ["recursive"] ∧
    "equal" ∉ get_rewrite_strategies
      ⟨DeclKind.struct, "Expr", [], [⟨"Expr", []⟩]⟩ := by
  decide

/-- C1 (amended): for a declaration without the strategy-override attribute,
the computed list is the kind-determined base (`equal` for `Flag`
declarations; `recursive` for others exactly when they have a `Recursive`
impl — never `equal`), followed by the configured extra strategies, followed
by `print` exactly when the `PrintParse`, `RecoverChildren` and `Splice`
impls are all present. -/
theorem c1_strategy_order (d : Decl)
    (h : attrsGet d.attrs "rewrite_strategies" = none) :
    get_rewrite_strategies d =
      autoBaseStrategies d ++ autoExtraStrategies d ++ autoPrintStrategies d ∧
    (d.kind = DeclKind.flag → autoBaseStrategies d = ["equal"]) ∧
    (d.kind ≠ DeclKind.flag → "equal" ∉ autoBaseStrategies d ∧
      (type_has_impl d "Recursive" = true →
        autoBaseStrategies d = ["recursive"])) := by
  refine ⟨?_, ?_, ?_⟩
  · unfold get_rewrite_strategies autoBaseStrategies autoExtraStrategies
      autoPrintStrategies
    rw [h]
    by_cases hf : d.kind = DeclKind.flag <;>
      by_cases hr : type_has_impl d "Recursive" <;>
      cases hx : attrsGet d.attrs "rewrite_extra_strategies" <;>
      simp_all <;>
      (split <;> simp)
  · intro hf
    simp [autoBaseStrategies, hf]
  · intro hf
    by_cases hr : type_has_impl d "Recursive" <;> simp_all [autoBaseStrategies]

/-- C1 witness: the amended characterisation applied to a concrete `Flag`
declaration with no attributes. -/
theorem c1_strategy_order_witness :
    attrsGet (Decl.attrs ⟨DeclKind.flag, "F", [], []⟩) "rewrite_strategies" =
      none ∧
    (get_rewrite_strategies ⟨DeclKind.flag, "F", [], []⟩ =
      autoBaseStrategies ⟨DeclKind.flag, "F", [], []⟩ ++
        autoExtraStrategies ⟨DeclKind.flag, "F", [], []⟩ ++
        autoPrintStrategies ⟨DeclKind.flag, "F", [], []⟩ ∧
    (Decl.kind ⟨DeclKind.flag, "F", [], []⟩ = DeclKind.flag →
      autoBaseStrategies ⟨DeclKind.flag, "F", [], []⟩ = ["equal"]) ∧
    (Decl.kind ⟨DeclKind.flag, "F", [], []⟩ ≠ DeclKind.flag →
      "equal" ∉ autoBaseStrategies ⟨DeclKind.flag, "F", [], []⟩ ∧
      (type_has_impl ⟨DeclKind.flag, "F", [], []⟩ "Recursive" = true →
        autoBaseStrategies ⟨DeclKind.flag, "F", [], []⟩ = ["recursive"]))) :=
  ⟨by decide, c1_strategy_order ⟨DeclKind.flag, "F", [], []⟩ (by decide)⟩

/-- C2: evaluation at the failing input.  A struct with
`#[rewrite_skip=Recursive]` and no print-enabling attributes has an empty
strategy list, yet `Rewrite` impl generation still applies and
`do_rewrite_impl` emits — without raising any error — an impl whose body is
just `false`, i.e. a rewrite method that can run and fail at first use. -/
theorem c2_empty_strategies_still_emit :
    get_rewrite_strategies
      ⟨DeclKind.struct, "T", [("rewrite_skip", "Recursive")], [⟨"T", []⟩]⟩ =
      [] ∧
    type_needs_generated_impl
      ⟨DeclKind.struct, "T", [("rewrite_skip", "Recursive")], [⟨"T", []⟩]⟩
      "Rewrite" = true ∧
    do_rewrite_impl
      ⟨DeclKind.struct, "T", [("rewrite_skip", "Recursive")], [⟨"T", []⟩]⟩ =
      ["#[allow(unused)]",
       "impl Rewrite for T \x7b",
       "  fn rewrite(old: &Self, new: &Self, mut rcx: RewriteCtxtRef) -> bool \x7b",
       "    false",
       "  \x7d",
       "\x7d"] := by
  decide

/-- The precedence value selected by `field_prec_expr` before the
special-position wrapping, decomposed as the amended resolution order reads:
the distinct leading-position value for the first sequence element when
configured, else the fixed-plus-one value, else the fixed value, else the
neutral `PREC_RESET`. -/
def precValOf (f : NodeField) (first : Bool) : String :=
  match truthyGet f.attrs "prec_first", first with
  | some p, true => prec_name_to_expr p false
  | _, _ =>
    match truthyGet f.attrs "prec_inc" with
    | some p => prec_name_to_expr p true
    | none =>
      match truthyGet f.attrs "prec" with
      | some p => prec_name_to_expr p false
      | none => "parser::PREC_RESET"

/-- C3: counterexample.  On a field configured with both a fixed precedence
(`prec=MAX`) and a binary-operator left-operand derivation
(`prec_left_of_binop=op`), the code returns the binop derivation, not the
configured fixed precedence the claim gives priority to — and it even skips
the `ExprPrec` wrapping. -/
theorem c3_counterexample :
    field_prec_expr ⟨"lhs", [("prec", "MAX"), ("prec_left_of_binop", "op")]⟩
      false "1" = "binop_left_prec(op1)" ∧
    field_prec_expr ⟨"lhs", [("prec", "MAX"), ("prec_left_of_binop", "op")]⟩
      false "1" ≠ "ExprPrec::Normal(parser::PREC_MAX)" := by
  decide

/-- C3 (amended): the resolution order `field_prec_expr` actually implements:
a binary-operator left-operand derivation first, then the right-operand
derivation, and only otherwise the wrapped value, which is the
leading-position `prec_first` value at the first sequence element when
configured, else `prec_inc`, else `prec`, else the neutral `PREC_RESET`. -/
theorem c3_prec_resolution (f : NodeField) (first : Bool) (suffix : String) :
    (∀ op, truthyGet f.attrs "prec_left_of_binop" = some op →
      field_prec_expr f first suffix =
        "binop_left_prec(" ++ op ++ suffix ++ ")") ∧
    (truthyGet f.attrs "prec_left_of_binop" = none →
      (∀ op, truthyGet f.attrs "prec_right_of_binop" = some op →
        field_prec_expr f first suffix =
          "binop_right_prec(" ++ op ++ suffix ++ ")") ∧
      (truthyGet f.attrs "prec_right_of_binop" = none →
        field_prec_expr f first suffix =
          "ExprPrec::" ++ (attrsGet f.attrs "prec_special").getD "Normal" ++
            "(" ++ precValOf f first ++ ")")) := by
  unfold field_prec_expr precValOf
  refine ⟨?_, ?_⟩
  · intro op hop
    rw [hop]
  · intro hl
    rw [hl]
    refine ⟨?_, ?_⟩
    · intro op hop
      rw [hop]
    · intro hr
      rw [hr]
      cases hpf : truthyGet f.attrs "prec_first" <;>
        cases first <;>
        cases hpi : truthyGet f.attrs "prec_inc" <;>
        cases hp : truthyGet f.attrs "prec" <;>
        simp_all

/-- C3 witness: the amended resolution applied to a field carrying only a
right-operand binop derivation. -/
theorem c3_prec_resolution_witness :
    truthyGet (NodeField.attrs ⟨"rhs", [("prec_right_of_binop", "op")]⟩)
      "prec_left_of_binop" = none ∧
    truthyGet (NodeField.attrs ⟨"rhs", [("prec_right_of_binop", "op")]⟩)
      "prec_right_of_binop" = some "op" ∧
    field_prec_expr ⟨"rhs", [("prec_right_of_binop", "op")]⟩ false "1" =
      "binop_right_prec(" ++ "op" ++ "1" ++ ")" :=
  ⟨by decide, by decide,
    ((c3_prec_resolution ⟨"rhs", [("prec_right_of_binop", "op")]⟩ false
      "1").2 (by decide)).1 "op" (by decide)⟩

/-- C9: a `rewrite_strategies` attribute completely overrides automatic
strategy selection: the computed list is exactly the attribute's comma-split
value, for every declaration whatever its kind, other attributes and trait
impls. -/
theorem c9_strategy_override (d : Decl) (s : String)
    (h : attrsGet d.attrs "rewrite_strategies" = some s) :
    get_rewrite_strategies d = splitComma s := by
  unfold get_rewrite_strategies
  rw [h]

/-- C9 witness: the override applied to a declaration that would otherwise
get `[recursive]`. -/
theorem c9_strategy_override_witness :
    attrsGet (Decl.attrs
      ⟨DeclKind.struct, "S", [("rewrite_strategies", "equal,print")],
        [⟨"S", []⟩]⟩) "rewrite_strategies" = some "equal,print" ∧
    get_rewrite_strategies
      ⟨DeclKind.struct, "S", [("rewrite_strategies", "equal,print")],
        [⟨"S", []⟩]⟩ = splitComma "equal,print" ∧
    splitComma "equal,print" = ["equal", "print"] :=
  ⟨by decide,
    c9_strategy_override
      ⟨DeclKind.struct, "S", [("rewrite_strategies", "equal,print")],
        [⟨"S", []⟩]⟩ "equal,print" (by decide),
    by decide⟩

/-- C4: the strategy-attempt sequence emitted by `do_rewrite_impl` for a
non-ignored type tries the configured strategies in order around a fresh
mark each: after any prefix of failing (append-only, hence
rewind-invisible) strategies, the first succeeding strategy makes the body
return `true` with exactly that strategy's context, the remaining
strategies never running; and when every strategy fails the body returns
`false` with the context rewound to its original state. -/
theorem c4_dispatch_loop (run : String → RewriteCtxt → Bool × RewriteCtxt)
    (pre post : List String) (s : String) (rcx : RewriteCtxt)
    (hpre : ∀ t ∈ pre, ∀ c, (run t c).1 = false ∧ ctxExtends c (run t c).2) :
    ((run s rcx).1 = true →
      genRewriteSem run (pre ++ s :: post) rcx = (true, (run s rcx).2)) ∧
    ((∀ t ∈ s :: post, ∀ c, (run t c).1 = false ∧ ctxExtends c (run t c).2) →
      genRewriteSem run (pre ++ s :: post) rcx = (false, rcx)) := by
  constructor
  · intro hs
    rw [genRewriteSem_skip run pre (s :: post) rcx hpre]
    simp [genRewriteSem, hs]
  · intro hall
    rw [genRewriteSem_skip run pre (s :: post) rcx hpre]
    exact genRewriteSem_allfail run (s :: post) rcx hall

/-- A concrete strategy-runner for witnesses: `print` succeeds and appends
one edit, everything else fails without touching the context. -/
def runDemo (t : String) (c : RewriteCtxt) : Bool × RewriteCtxt :=
  if t = "print" then (true, { c with edits := c.edits ++ [7] }) else (false, c)

/-- An empty starting context for witnesses. -/
def ctx0 : RewriteCtxt :=
  ⟨[], "parser::PREC_RESET", []⟩

/-- C4 witness: with strategies `[recursive, print]` where `recursive` fails
cleanly and `print` succeeds, the dispatch loop returns `true` with the
`print` context. -/
theorem c4_dispatch_loop_witness :
    genRewriteSem runDemo (["recursive"] ++ "print" :: []) ctx0 =
      (true, (runDemo "print" ctx0).2) :=
  (c4_dispatch_loop runDemo ["recursive"] [] "print" ctx0
    (by
      intro t ht c
      simp at ht
      subst ht
      simp [runDemo, ctxExtends])).1 (by decide)

lemma fieldsSem_eq_runAll {V : Type} (ops : SemOps V) (ce : Bool)
    (fs : List NodeField) (xs ys : List V) (rcx : RewriteCtxt) :
    (fieldsSem ops ce fs xs ys rcx).1 =
      (runFieldsAll ops ce fs xs ys rcx).1.all (fun x => x) := by
  induction fs generalizing xs ys rcx with
  | nil => cases xs <;> cases ys <;> simp [fieldsSem, runFieldsAll]
  | cons f fs ih =>
    cases xs with
    | nil => simp [fieldsSem, runFieldsAll]
    | cons a xs =>
      cases ys with
      | nil => simp [fieldsSem, runFieldsAll]
      | cons b ys =>
        by_cases hig : attrsContains f.attrs "rewrite_ignore" = true
        · simp [fieldsSem, runFieldsAll, hig, ih]
        · cases hr : (fieldBlockSem ops ce f a b rcx).1 <;>
            simp [fieldsSem, runFieldsAll, hig, hr, ih]

/-- C5: the `match` emitted by `do_recursive_body` returns `false` whenever
the two values carry different variants; and on a matching variant it
succeeds exactly when every non-ignored field of that variant, taken in
declaration order with the context threaded through the per-field blocks
(the dispatcher call, or `rewrite_seq` for sequence-rewriting fields),
reconciles successfully. -/
theorem c5_recursive_body {V : Type} (ops : SemOps V) (d : Decl)
    (oldv newv : NodeVal V) (rcx : RewriteCtxt) :
    (oldv.1 ≠ newv.1 → recursiveSem ops d oldv newv rcx = (false, rcx)) ∧
    (∀ h : oldv.1 = newv.1 ∧ oldv.1 < d.variants.length,
      ((recursiveSem ops d oldv newv rcx).1 = true ↔
        (runFieldsAll ops (attrsContains d.attrs "prec_contains_expr")
          (d.variants.get ⟨oldv.1, h.2⟩).fields oldv.2 newv.2 rcx).1.all
            (fun x => x) = true)) := by
  constructor
  · intro hne
    unfold recursiveSem
    rw [dif_neg (fun hc => hne hc.1)]
  · intro h
    unfold recursiveSem
    rw [dif_pos h, fieldsSem_eq_runAll]

/-- A concrete instance of the abstract field operations for witnesses:
values are natural numbers, the dispatcher succeeds exactly on equal
values, sequence rewriting always succeeds, all without touching the
context. -/
def opsDemo : SemOps Nat where
  rw := fun a b c => (a == b, c)
  rwseq := fun _ _ _ c => (true, c)
  recNC := fun _ _ c => c
  elem0 := fun v => v
  rest1 := fun v => v

/-- C5 witness: a two-field struct on matching variants, where both fields
reconcile, and the mismatch case on distinct variant indices. -/
theorem c5_recursive_body_witness :
    recursiveSem opsDemo
      ⟨DeclKind.struct, "S", [],
        [⟨"S", [⟨"x", []⟩, ⟨"y", []⟩]⟩, ⟨"T", []⟩]⟩
      ((0, [1, 2]) : NodeVal Nat) ((1, [1, 2]) : NodeVal Nat) ctx0 =
      (false, ctx0) :=
  (c5_recursive_body opsDemo
    ⟨DeclKind.struct, "S", [], [⟨"S", [⟨"x", []⟩, ⟨"y", []⟩]⟩, ⟨"T", []⟩]⟩
    (0, [1, 2]) (1, [1, 2]) ctx0).1 (by decide)

/-- C6: in the blocks emitted by `do_recursive_body` and
`do_recover_children_match` that install an expression precedence on
entering a field (a `prec_first` field, or any field of a
`prec_contains_expr` declaration), the final `replace_expr_prec(old)` call
restores the value saved by the first one, so the context's precedence
after the block equals its value before the block — whatever the descent
into the child did. -/
theorem c6_prec_restored {V : Type} (ops : SemOps V) (ce : Bool)
    (f : NodeField) (a b r n : V) (rcx : RewriteCtxt)
    (h : attrsContains f.attrs "prec_first" = true ∨ ce = true) :
    ((fieldBlockSem ops ce f a b rcx).2).curPrec = rcx.curPrec ∧
    (recoverFieldSem ops ce f r n rcx).curPrec = rcx.curPrec := by
  by_cases hpf : attrsContains f.attrs "prec_first" = true
  · constructor
    · simp [fieldBlockSem, hpf, replaceExprPrec_curPrec, replaceExprPrec_fst]
    · simp [recoverFieldSem, hpf, replaceExprPrec_curPrec, replaceExprPrec_fst]
  · have hce : ce = true := h.resolve_left hpf
    constructor
    · simp [fieldBlockSem, hpf, hce, replaceExprPrec_curPrec,
        replaceExprPrec_fst]
    · simp [recoverFieldSem, hpf, hce, replaceExprPrec_curPrec,
        replaceExprPrec_fst]

/-- C6 witness: the precedence round-trip on a `prec_contains_expr` field
block with the demo operations. -/
theorem c6_prec_restored_witness :
    (attrsContains (NodeField.attrs ⟨"cond", []⟩) "prec_first" = true ∨
      true = true) ∧
    ((fieldBlockSem opsDemo true ⟨"cond", []⟩ 1 1 ctx0).2).curPrec =
      ctx0.curPrec ∧
    (recoverFieldSem opsDemo true ⟨"cond", []⟩ 1 1 ctx0).curPrec =
      ctx0.curPrec :=
  ⟨Or.inr rfl, c6_prec_restored opsDemo true ⟨"cond", []⟩ 1 1 1 1 ctx0
    (Or.inr rfl)⟩

/-- C7: in the methods emitted by `do_recover_children_impl`, the recovery
hook is consulted only when the declaration has a `Recover` impl (without
one, both methods just recurse into the children, whatever the hook would
do); with one, a hook returning `true` stops the descent there, a hook
returning `false` continues into the children, `recover_node_and_children`
passes no span restriction to the hook and `recover_node_restricted` passes
the old span. -/
theorem c7_recover_hook (d : Decl)
    (hook : Option Nat → RewriteCtxt → Bool × RewriteCtxt)
    (children : RewriteCtxt → RewriteCtxt) (rcx : RewriteCtxt) (sp : Nat) :
    (type_has_impl d "Recover" = false →
      recoverNodeAndChildrenSem d hook children rcx = children rcx ∧
      recoverNodeRestrictedSem d sp hook children rcx = children rcx) ∧
    (type_has_impl d "Recover" = true →
      (∀ c, hook none rcx = (true, c) →
        recoverNodeAndChildrenSem d hook children rcx = c) ∧
      (∀ c, hook none rcx = (false, c) →
        recoverNodeAndChildrenSem d hook children rcx = children c) ∧
      (∀ c, hook (some sp) rcx = (true, c) →
        recoverNodeRestrictedSem d sp hook children rcx = c) ∧
      (∀ c, hook (some sp) rcx = (false, c) →
        recoverNodeRestrictedSem d sp hook children rcx = children c)) := by
  constructor
  · intro hno
    constructor
    · simp [recoverNodeAndChildrenSem, hno]
    · simp [recoverNodeRestrictedSem, hno]
  · intro hyes
    refine ⟨?_, ?_, ?_, ?_⟩
    · intro c hc
      simp [recoverNodeAndChildrenSem, hyes, hc]
    · intro c hc
      simp [recoverNodeAndChildrenSem, hyes, hc]
    · intro c hc
      simp [recoverNodeRestrictedSem, hyes, hc]
    · intro c hc
      simp [recoverNodeRestrictedSem, hyes, hc]

/-- A recovery hook for witnesses: salvages (returns `true`) exactly when a
span restriction is supplied, leaving the context unchanged. -/
def hookDemo (o : Option Nat) (c : RewriteCtxt) : Bool × RewriteCtxt :=
  (o.isSome, c)

/-- C7 witness: on a `rewrite_print_recover` declaration (which has a
`Recover` impl), `recover_node_restricted` passes the old span, `hookDemo`
salvages, and the descent stops with the hook's context. -/
theorem c7_recover_hook_witness :
    type_has_impl
      ⟨DeclKind.struct, "Item", [("rewrite_print_recover", "")], [⟨"Item", []⟩]⟩
      "Recover" = true ∧
    recoverNodeRestrictedSem
      ⟨DeclKind.struct, "Item", [("rewrite_print_recover", "")], [⟨"Item", []⟩]⟩
      5 hookDemo (fun c => c) ctx0 = ctx0 :=
  ⟨by decide,
    ((c7_recover_hook
      ⟨DeclKind.struct, "Item", [("rewrite_print_recover", "")], [⟨"Item", []⟩]⟩
      hookDemo (fun c => c) ctx0 5).2 (by decide)).2.2.1 ctx0 rfl⟩

/-- C8: when the joint walk emitted by `do_recover_children_match` for a
non-ignored struct or enum declaration meets a reparsed/new pair carrying
different variants, execution falls to the final match arm and panics with
the diagnostic, rather than returning a failure value or walking on. -/
theorem c8_mismatch_panics {V : Type} (ops : SemOps V) (d : Decl)
    (r n : NodeVal V) (rcx : RewriteCtxt)
    (hk : d.kind = DeclKind.struct ∨ d.kind = DeclKind.enum)
    (hi : attrsContains d.attrs "rewrite_ignore" = false)
    (hr : r.1 < d.variants.length) (hn : n.1 < d.variants.length)
    (hne : r.1 ≠ n.1) :
    recoverChildrenMatchSem ops d r n rcx =
      Except.error "new and reparsed ASTs don\x27t match" := by
  unfold recoverChildrenMatchSem
  rw [if_pos, dif_neg (fun hc => hne hc.1)]
  simp [hk, hi]

/-- C8 witness: the panic arm reached on a concrete two-variant enum with a
variant mismatch between the reparsed and new values. -/
theorem c8_mismatch_panics_witness :
    recoverChildrenMatchSem opsDemo
      ⟨DeclKind.enum, "E", [], [⟨"A", []⟩, ⟨"B", []⟩]⟩
      ((0, []) : NodeVal Nat) ((1, []) : NodeVal Nat) ctx0 =
      Except.error "new and reparsed ASTs don\x27t match" :=
  c8_mismatch_panics opsDemo ⟨DeclKind.enum, "E", [], [⟨"A", []⟩, ⟨"B", []⟩]⟩
    (0, []) (1, []) ctx0 (by decide) (by decide) (by decide) (by decide)
    (by decide)

lemma wordRun_all (l : List Char) (h : ∀ c ∈ l, isWordChar c = true) :
    wordRun l = (l, []) := by
  induction l with
  | nil => rfl
  | cons c cs ih =>
    have hc : isWordChar c = true := h c (by simp)
    have ihcs : wordRun cs = (cs, []) :=
      ih (fun x hx => h x (by simp [hx]))
    simp [wordRun, hc, ihcs]

lemma selfSub_nil (suffix : String) (fuel : Nat) (b : Bool) :
    selfSub suffix fuel b [] = [] := by
  cases fuel <;> rfl

lemma selfSub_self_match (suffix : String) (fuel : Nat) (n0 : Char)
    (ntl : List Char) (hw : ∀ c ∈ n0 :: ntl, isWordChar c = true) :
    selfSub suffix (fuel + 1) false
      ('s' :: 'e' :: 'l' :: 'f' :: '.' :: n0 :: ntl) =
      '(' :: '*' :: ((n0 :: ntl) ++ suffix.data ++ [')']) := by
  have hrun : wordRun (n0 :: ntl) = (n0 :: ntl, []) := wordRun_all _ hw
  simp [selfSub, hrun, selfSub_nil]

/-- C10: the `seq_rewrite_outer_span` expression is substituted with the
suffix-`2` bindings — the fields of the second matched tree, the `new`
argument of `recursive` — behind a dereference: the substitution rewrites
an occurrence of the pattern over field `foo` to `(*foo2)`, and the emitted
`rewrite_seq` call passes exactly the substituted expression as the outer
span; a field with sequence rewriting enabled but no outer-span attribute
passes `DUMMY_SP` instead. -/
theorem c10_outer_span_substitution (f : NodeField)
    (e o n m name : String)
    (hn : name.data ≠ [] ∧ ∀ c ∈ name.data, isWordChar c = true) :
    rewrite_field_expr ("self." ++ name) "2" = "(*" ++ name ++ "2)" ∧
    (attrsGet f.attrs "seq_rewrite_outer_span" = some e →
      mk_rewrite_str f o n =
        "rewrite_seq(" ++ o ++ ", " ++ n ++ ", " ++
          rewrite_field_expr e "2" ++ ", rcx.borrow())") ∧
    (attrsGet f.attrs "seq_rewrite_outer_span" = none →
      attrsGet f.attrs "seq_rewrite" = some m →
      mk_rewrite_str f o n =
        "rewrite_seq(" ++ o ++ ", " ++ n ++ ", " ++ "DUMMY_SP" ++
          ", rcx.borrow())") := by
  obtain ⟨hne, hw⟩ := hn
  refine ⟨?_, ?_, ?_⟩
  · cases name with
    | mk dat =>
      cases dat with
      | nil => exact absurd rfl hne
      | cons n0 ntl =>
        show String.mk (selfSub "2"
          (('s' :: 'e' :: 'l' :: 'f' :: '.' :: n0 :: ntl).length) false
          ('s' :: 'e' :: 'l' :: 'f' :: '.' :: n0 :: ntl)) = _
        rw [show ('s' :: 'e' :: 'l' :: 'f' :: '.' :: n0 :: ntl).length =
          (ntl.length + 5) + 1 from by simp]
        rw [selfSub_self_match "2" (ntl.length + 5) n0 ntl hw]
        show String.mk _ = String.mk _
        exact congrArg String.mk (by simp)
  · intro ho
    have hc : attrsContains f.attrs "seq_rewrite_outer_span" = true := by
      simp [attrsContains, ho]
    unfold mk_rewrite_str seqRewriteMode outerSpanArg
    rw [ho]
    cases hs : attrsGet f.attrs "seq_rewrite" <;> simp [hs, hc]
  · intro ho hs
    unfold mk_rewrite_str seqRewriteMode outerSpanArg
    rw [ho, hs]

/-- C10 witness: the substitution and the emitted calls on concrete
fields (`self.span` becomes `(*span2)`, dereferencing the suffix-2
binding). -/
theorem c10_outer_span_substitution_witness :
    ("span".data ≠ [] ∧ ∀ c ∈ "span".data, isWordChar c = true) ∧
    rewrite_field_expr ("self." ++ "span") "2" = "(*" ++ "span" ++ "2)" ∧
    mk_rewrite_str ⟨"stmts", [("seq_rewrite_outer_span", "self.span")]⟩
      "stmts1" "stmts2" =
      "rewrite_seq(" ++ "stmts1" ++ ", " ++ "stmts2" ++ ", " ++
        rewrite_field_expr "self.span" "2" ++ ", rcx.borrow())" ∧
    mk_rewrite_str ⟨"items", [("seq_rewrite", "")]⟩ "items1" "items2" =
      "rewrite_seq(" ++ "items1" ++ ", " ++ "items2" ++ ", " ++ "DUMMY_SP" ++
        ", rcx.borrow())" :=
  ⟨⟨by decide, by decide⟩,
    (c10_outer_span_substitution
      ⟨"stmts", [("seq_rewrite_outer_span", "self.span")]⟩
      "self.span" "stmts1" "stmts2" "" "span" ⟨by decide, by decide⟩).1,
    ((c10_outer_span_substitution
      ⟨"stmts", [("seq_rewrite_outer_span", "self.span")]⟩
      "self.span" "stmts1" "stmts2" "" "span" ⟨by decide, by decide⟩).2).1
      (by decide),
    ((c10_outer_span_substitution
      ⟨"items", [("seq_rewrite", "")]⟩
      "x" "items1" "items2" "" "span" ⟨by decide, by decide⟩).2).2
      (by decide) (by decide)⟩
